import Mathlib

/-!
Verification of the FAO download scraper (`main.py`).

The program is shallowly embedded: the filesystem is an explicit list of
created files, HTTP is an oracle mapping a request URL to a response, and
each function returns its result together with the updated filesystem and
the trace of observable events (sleeps and GET requests) it produced.
-/

namespace Fao

/-- An element of a parsed HTML document carrying an `href` attribute
(`soup.find_all(href=...)` selects elements by their `href` value alone). -/
structure Anchor where
  href : String
deriving DecidableEq

/-- A table-cell (`td`) element: its `get_text()` result and the nested
link elements found by `it.find_all('a')`. -/
structure Cell where
  text : String
  links : List Anchor
deriving DecidableEq

/-- The parsed view of a fetched document: its href-bearing elements in
document order, and its `td` cells in document order. -/
structure Page where
  anchors : List Anchor
  tds : List Cell
deriving DecidableEq

/-- A `requests` response: HTTP status code, resolved URL (`response.url`),
and the parsed view of its body. -/
structure Response where
  status : Nat
  url : String
  page : Page

/-- The network oracle: what a GET to a given URL returns. -/
abbrev Net := String → Response

/-- Files the program creates.  `desc c` is `save/fao-description-{c}.pdf`
(written by `page2pdf`), `cacheUrl c` is `cache/{c}-url`, `cachePdf c i` is
`cache/{c}-pdf{i}`, and `guideline dir c i` is `{dir}/food-guideline-{c}{i}.pdf`
(written by `gen_pdf`). -/
inductive File where
  | desc (c : String)
  | cacheUrl (c : String)
  | cachePdf (c : String) (idx : Nat)
  | guideline (dir : String) (c : String) (idx : Nat)
deriving DecidableEq

/-- The filesystem state: the list of files present, in creation order. -/
abbrev FS := List File

/-- A request header set, as an ordered list of header/value pairs. -/
abbrev Headers := List (String × String)

/-- Observable side effects other than file creation: `time.sleep` calls and
outbound GET requests with the headers they carry. -/
inductive Event where
  | sleep (seconds : ℚ)
  | get (url : String) (headers : Headers)
deriving DecidableEq

/-- The fixed browser-mimicking header set `HEADERS` from the source. -/
def HEADERS : Headers :=
  [("User-Agent", "Mozilla/5.0 (Macintosh; Intel Mac OS X 10_15_7) AppleWebKit/537.36 (KHTML, like Gecko) Chrome/118.0.0.0 Safari/537.36"),
   ("Accept", "text/html,application/xhtml+xml,application/xml;q=0.9,image/avif,image/webp,image/apng,*/*;q=0.8,application/signed-exchange;v=b3;q=0.7"),
   ("Accept-Encoding", "gzip, deflate, br"),
   ("Accept-Language", "zh-CN,zh;q=0.9,en;q=0.8")]

/-- Errors raised by the program's `assert` statements. -/
inductive Err where
  | fetchError (url : String)
  | structureError
  | pdfFetchError (url : String)
deriving DecidableEq

instance {e a : Type} [DecidableEq e] [DecidableEq a] : DecidableEq (Except e a) := fun x y =>
  match x, y with
  | Except.ok u, Except.ok v =>
    if h : u = v then isTrue (by rw [h]) else isFalse (by intro hc; cases hc; exact h rfl)
  | Except.error u, Except.error v =>
    if h : u = v then isTrue (by rw [h]) else isFalse (by intro hc; cases hc; exact h rfl)
  | Except.ok _, Except.error _ => isFalse (by intro hc; cases hc)
  | Except.error _, Except.ok _ => isFalse (by intro hc; cases hc)

/-- Does the list start with the three characters `p`, `d`, `f`? -/
def startsWithPdf (l : List Char) : Bool :=
  match l with
  | p :: d :: f :: _ => p = 'p' && d = 'd' && f = 'f'
  | _ => false

/-- Python `re.search` with the pattern `.*.pdf` (note the unescaped dot):
the search succeeds exactly when some non-newline character is immediately
followed by the literal characters `pdf`.  The leading `.*` may match the
empty string, so only the single `.` before `pdf` constrains the input. -/
def hasCharThenPdf : List Char → Bool
  | [] => false
  | c :: rest => (decide (c ≠ '\n') && startsWithPdf rest) || hasCharThenPdf rest

/-- Whether an `href` value satisfies `re.compile(r'.*.pdf')` under
BeautifulSoup's attribute matching (which calls `pattern.search(value)`). -/
def hrefMatches (s : String) : Bool :=
  hasCharThenPdf s.data

/-- The link extraction `soup.find_all(href=re.compile(r'.*.pdf'))`:
all href-bearing elements whose href the pattern search accepts,
in document order. -/
def extractLinks (p : Page) : List Anchor :=
  p.anchors.filter (fun a => hrefMatches a.href)

/-- The per-country link-download loop of `parse` (`for idx, each in
enumerate(found)`): GET each link; a non-200 status raises
`invalid pdf url: {url}`; otherwise write the cache file (when `stepwise`)
and the guideline PDF `food-guideline-{c}{idx}.pdf` under `path`
(defaulting to `save` on first use), then continue with the next index. -/
def downloadLoop (net : Net) (c : String) (headers : Headers) (stepwise : Bool) :
    List Anchor → Nat → Option String → FS → List Event →
    Except Err Unit × FS × List Event
  | [], _, _, fs, ev => (Except.ok (), fs, ev)
  | a :: rest, idx, path, fs, ev =>
    let download := net a.href
    let ev2 := ev ++ [Event.get a.href headers]
    if download.status = 200 then
      let fs2 : FS := if stepwise then fs ++ [File.cachePdf c idx] else fs
      let dir := path.getD "save"
      let fs3 : FS := fs2 ++ [File.guideline dir c idx]
      downloadLoop net c headers stepwise rest (idx + 1) (some dir) fs3 ev2
    else
      (Except.error (Err.pdfFetchError download.url), fs, ev2)

/-- Adapter from the loop's unit result to `parse`'s value: the Python
function falls off the end of the loop, so a fully successful fresh run
returns `None`. -/
def downloadRun (net : Net) (c : String) (headers : Headers) (stepwise : Bool)
    (found : List Anchor) (path : Option String) (fs : FS) (ev : List Event) :
    Except Err (Option File) × FS × List Event :=
  match downloadLoop net c headers stepwise found 0 path fs ev with
  | (Except.ok _, fs', ev') => (Except.ok none, fs', ev')
  | (Except.error e, fs', ev') => (Except.error e, fs', ev')

/-- The body of `parse` past the duplicate check: sleep when `pause` is
truthy, GET the page, fail with `invalid url: {resolved}` on non-200,
render the description PDF, cache the raw bytes when `stepwise`, extract
the PDF links, fail with `invalid search condition` when none match, and
otherwise run the download loop. -/
def parseFresh (net : Net) (fs : FS) (c url : String) (path : Option String)
    (headers : Headers) (pause : ℚ) (stepwise : Bool) :
    Except Err (Option File) × FS × List Event :=
  let ev0 : List Event := if pause ≠ 0 then [Event.sleep pause] else []
  let response := net url
  let ev1 := ev0 ++ [Event.get url headers]
  if response.status = 200 then
    let fs1 : FS := fs ++ [File.desc c]
    let fs2 : FS := if stepwise then fs1 ++ [File.cacheUrl c] else fs1
    let found := extractLinks response.page
    if found.length > 0 then
      downloadRun net c headers stepwise found path fs2 ev1
    else
      (Except.error Err.structureError, fs2, ev1)
  else
    (Except.error (Err.fetchError response.url), fs, ev1)

/-- The function `parse(c, url, path, headers, pause, stepwise)`: when the
description PDF for `c` already exists it prints and returns that path at
once; otherwise it runs the fresh-fetch pipeline. -/
def parse (net : Net) (fs : FS) (c url : String) (path : Option String)
    (headers : Headers) (pause : ℚ) (stepwise : Bool) :
    Except Err (Option File) × FS × List Event :=
  if File.desc c ∈ fs then
    (Except.ok (some (File.desc c)), fs, ([] : List Event))
  else
    parseFresh net fs c url path headers pause stepwise

/-- The function `get_countries(region, url, headers)`: GET the listing
page (with no status check), keep the `td` cells containing no nested
link element, and map the region name to their texts in document order. -/
def get_countries (net : Net) (region url : String) (headers : Headers) :
    (String × List String) × List Event :=
  let response := net url
  let tds := response.page.tds
  let cs := (tds.filter (fun it => it.links.isEmpty)).map Cell.text
  ((region, cs), [Event.get url headers])

/-- The hard-coded single-URL test target for Kenya in `__main__`. -/
def KENYA_URL : String :=
  "https://www.fao.org/nutrition/education/food-dietary-guidelines/regions/countries/kenya/en/"

/-- The region list iterated by `__main__`. -/
def REGIONS : List String :=
  ["africa", "asia-pacific", "europe", "latin-america-caribbean", "near-east", "north-america"]

/-- The region listing URL `base_url.format(r)`. -/
def regionUrl (r : String) : String :=
  "https://www.fao.org/nutrition/education/food-dietary-guidelines/regions/" ++ r ++ "/en/"

/-- Split a character list at every character satisfying `p` (each separator
starts a new, possibly empty, chunk). -/
def splitOnP (p : Char → Bool) : List Char → List (List Char)
  | [] => [[]]
  | c :: rest =>
    let r := splitOnP p rest
    if p c then [] :: r
    else
      match r with
      | [] => [[c]]
      | h :: t => (c :: h) :: t

/-- Python `str.split()` with no argument: split on whitespace runs and
drop empty chunks. -/
def pySplitWs (s : String) : List String :=
  ((splitOnP (fun ch => ch.isWhitespace) s.data).filter (fun l => l ≠ [])).map String.mk

/-- Join strings with a hyphen, as `'-'.join(...)`. -/
def joinHyphen : List String → String
  | [] => ""
  | [s] => s
  | s :: rest => s ++ "-" ++ joinHyphen rest

/-- Python `str.lower()`: lower-case each character. -/
def pyLower (s : String) : String :=
  String.mk (s.data.map Char.toLower)

/-- The URL-segment normalization `'-'.join(c.lower().split())`. -/
def normalizeCountry (c : String) : String :=
  joinHyphen (pySplitWs (pyLower c))

/-- The per-country guideline URL built by the driver loop. -/
def countryUrlOf (c : String) : String :=
  "https://www.fao.org/nutrition/education/food-dietary-guidelines/regions/countries/"
    ++ normalizeCountry c ++ "/en/"

/-- The region-fetch loop of `__main__`: for each region GET its listing via
`get_countries` with the default (empty) headers, accumulate the mapping,
and sleep two seconds. -/
def fetchRegions (net : Net) : List (String × List String) × List Event :=
  REGIONS.foldl
    (fun acc r =>
      let res := get_countries net r (regionUrl r) []
      (acc.1 ++ [res.1], acc.2 ++ res.2 ++ [Event.sleep 2]))
    (([] : List (String × List String)), ([] : List Event))

/-- The rational `3/2` — the driver's 1.5-second pause — written in normal
form so that it evaluates inside the kernel; `threeHalves_eq` below checks
it equals `3 / 2`. -/
def threeHalves : ℚ := ⟨3, 2, by decide, by decide⟩

/-- The per-country loop of `__main__`: invoke `parse(c, url, pause=1.5,
stepwise=True)` (headers left at their default) inside a `try`/`except`
that swallows any error and continues with the next country. -/
def countryLoop (net : Net) : List String → FS → List Event → FS × List Event
  | [], fs, ev => (fs, ev)
  | c :: rest, fs, ev =>
    let r := parse net fs c (countryUrlOf c) none [] threeHalves true
    countryLoop net rest r.2.1 (ev ++ r.2.2)

/-- The base name of a file, as it appears in a directory listing. -/
def baseName : File → String
  | File.desc c => "fao-description-" ++ c ++ ".pdf"
  | File.cacheUrl c => c ++ "-url"
  | File.cachePdf c i => c ++ "-pdf" ++ toString i
  | File.guideline _ c i => "food-guideline-" ++ c ++ toString i ++ ".pdf"

/-- The directory a file lives in. -/
def dirName : File → String
  | File.desc _ => "save"
  | File.cacheUrl _ => "cache"
  | File.cachePdf _ _ => "cache"
  | File.guideline d _ _ => d

/-- The full path of a file. -/
def fileName (f : File) : String := dirName f ++ "/" ++ baseName f

/-- The listing of the `save` directory: base names of the files under
`save/`, without duplicates. -/
def saveNames (fs : FS) : List String :=
  ((fs.filter (fun f => dirName f = "save")).map baseName).dedup

/-- Worker for `replaceAllL`, structurally recursive on a fuel argument so
that it evaluates inside the kernel; every step consumes at least one
character, so fuel equal to the input length never runs out. -/
def replaceAllGo (pat rep : List Char) : Nat → List Char → List Char
  | _, [] => []
  | 0, l => l
  | fuel + 1, c :: rest =>
    if pat ≠ [] ∧ pat.isPrefixOf (c :: rest) then
      rep ++ replaceAllGo pat rep fuel (List.drop (pat.length - 1) rest)
    else
      c :: replaceAllGo pat rep fuel rest

/-- Python `str.replace`: replace every non-overlapping occurrence of
`pat` (scanning left to right) by `rep`. -/
def replaceAllL (pat rep l : List Char) : List Char :=
  replaceAllGo pat rep l.length l

/-- String version of `replaceAllL`. -/
def strReplaceAll (s pat rep : String) : String :=
  String.mk (replaceAllL pat.data rep.data s.data)

/-- Split a character list at every occurrence of the separator character,
as Python `str.split('-')`. -/
def splitOnChar (sep : Char) : List Char → List (List Char)
  | [] => [[]]
  | c :: rest =>
    let r := splitOnChar sep rest
    if c = sep then [] :: r
    else
      match r with
      | [] => [[c]]
      | h :: t => (c :: h) :: t

/-- Python `s.split('-')[-1]`: the last hyphen-separated segment. -/
def lastSegment (s : String) : String :=
  String.mk ((splitOnChar '-' s.data).getLastD [])

/-- A single-star glob `pre*post` matched against a base name. -/
def globMatch (pre post n : String) : Bool :=
  pre.data.isPrefixOf n.data && post.data.isSuffixOf n.data &&
    decide (pre.data.length + post.data.length ≤ n.data.length)

/-- The reconciliation step of `__main__`: countries (as last hyphen
segments) read from `save/fao-description-*.pdf` names, minus those read
from `save/food-*0.pdf` names, as a set. -/
def reconcile (fs : FS) : List String :=
  let names := saveNames fs
  let with_desc := (names.filter (fun n => globMatch "fao-description-" ".pdf" n)).map
    (fun n => lastSegment (strReplaceAll n ".pdf" ""))
  let with_pdf := (names.filter (fun n => globMatch "food-" "0.pdf" n)).map
    (fun n => lastSegment (strReplaceAll n "0.pdf" ""))
  (with_desc.filter (fun x => ¬ with_pdf.contains x)).dedup

/-- The observable outcome of a full run of `__main__`. -/
structure RunResult where
  fs : FS
  events : List Event
  countries : List (String × List String)
  failed : List String
deriving DecidableEq

/-- The `__main__` driver: the unguarded single-URL Kenya test (with
`HEADERS`), then the region→countries mapping (loaded from the snapshot
file when present, else fetched), then the guarded per-country loop, then
the reconciliation report.  An error in the Kenya test aborts the whole
run. -/
def mainRun (net : Net) (snapshot : Option (List (String × List String)))
    (fs0 : FS) : Except Err RunResult :=
  match parse net fs0 "kenya" KENYA_URL none HEADERS 1 true with
  | (Except.error e, _, _) => Except.error e
  | (Except.ok _, fs1, ev1) =>
    let rc : List (String × List String) × List Event :=
      match snapshot with
      | some cs => (cs, [])
      | none => fetchRegions net
    let allCountries := (rc.1.map Prod.snd).flatten
    let s2 := countryLoop net allCountries fs1 (ev1 ++ rc.2)
    Except.ok { fs := s2.1, events := s2.2, countries := rc.1, failed := reconcile s2.1 }

/-- The event trace of a run, empty when the run aborted. -/
def mainEvents (r : Except Err RunResult) : List Event :=
  match r with
  | Except.ok res => res.events
  | Except.error _ => []

/-- The files the download loop creates for `k` consecutive successful
links starting at index `n`: the optional cache copy and the guideline
PDF for each index. -/
def producedFiles (sw : Bool) (dir c : String) : Nat → Nat → List File
  | _, 0 => []
  | n, k + 1 =>
    ((if sw then [File.cachePdf c n] else []) ++ [File.guideline dir c n]) ++
      producedFiles sw dir c (n + 1) k

/-- Does the second list contain the first as a contiguous sublist? -/
def containsSub (pat : List Char) : List Char → Bool
  | [] => pat.isEmpty
  | c :: rest => pat.isPrefixOf (c :: rest) || containsSub pat rest

/-- Follows the spec's words for the link pattern: the `href` value
"contains `.pdf`" as a literal substring, case-sensitively. -/
def containsDotPdf (s : String) : Bool :=
  containsSub ['.', 'p', 'd', 'f'] s.data

/-- The language of `re.search(r'.*.pdf', s)` stated declaratively: some
non-newline character of `s` is immediately followed by `pdf`. -/
def matchesCharThenPdf (s : String) : Prop :=
  ∃ pre c post, s.data = pre ++ c :: 'p' :: 'd' :: 'f' :: post ∧ c ≠ '\n'

/-- Whether a file is a downloaded guideline PDF. -/
def isGuidelineFile : File → Bool
  | File.guideline _ _ _ => true
  | _ => false

/-- Whether the description PDF for country `c` is on disk. -/
def hasDescPdf (fs : FS) (c : String) : Bool :=
  fs.contains (File.desc c)

/-- Whether at least one guideline PDF for country `c` is on disk. -/
def hasGuidelinePdf (fs : FS) (c : String) : Bool :=
  fs.any (fun f =>
    match f with
    | File.guideline _ c2 _ => c2 = c
    | _ => false)

/-- Follows the spec's words for the failure report: the countries having
a description PDF but no guideline PDF, among the run's countries. -/
def specFailedCountries (cs : List String) (fs : FS) : List String :=
  cs.filter (fun c => hasDescPdf fs c && ! hasGuidelinePdf fs c)

/-- A network where every URL answers 200 with a page holding one matching
PDF link and no table cells. -/
def net0 : Net := fun u =>
  { status := 200, url := u, page := { anchors := [⟨"a.pdf"⟩], tds := [] } }

/-- A network whose Kenya page holds exactly the two anchors of the
end-to-end scenario; every other URL answers an empty 200 page. -/
def netC2 : Net := fun u =>
  if u = KENYA_URL then
    { status := 200, url := u,
      page := { anchors := [⟨"a.pdf"⟩, ⟨"report.PDF?x=1"⟩], tds := [] } }
  else
    { status := 200, url := u, page := { anchors := [], tds := [] } }

/-- A network answering 404 everywhere, with a body containing the plain
table cell `Kenya`. -/
def netR404 : Net := fun u =>
  { status := 404, url := u, page := { anchors := [], tds := [⟨"Kenya", []⟩] } }

/-- The same pages as `netR404` but with status 200. -/
def netR200 : Net := fun u =>
  { status := 200, url := u, page := { anchors := [], tds := [⟨"Kenya", []⟩] } }

/-- A network where only the URL `bad.pdf` fails. -/
def netC6 : Net := fun u =>
  if u = "bad.pdf" then
    { status := 404, url := u, page := { anchors := [], tds := [] } }
  else
    { status := 200, url := u, page := { anchors := [], tds := [] } }

/-- A network answering 200 everywhere with pages containing no links. -/
def netNoLinks : Net := fun u =>
  { status := 200, url := u, page := { anchors := [], tds := [] } }

/-- A network whose pages hold the two-cell table of the directory-builder
scenario: a plain `Kenya` cell and a linked `Sub` cell. -/
def netC8 : Net := fun u =>
  { status := 200, url := u,
    page := { anchors := [], tds := [⟨"Kenya", []⟩, ⟨"Sub", [⟨"x"⟩]⟩] } }

/-- A save directory produced by a run over the hyphenated country
`guinea-bissau` (description only) and the country `bissau` (description
and one guideline). -/
def fsEx : FS :=
  [File.desc "guinea-bissau", File.desc "bissau", File.guideline "save" "bissau" 0]

/-- A save directory with description PDFs for `a`, `b`, `c` and guideline
PDFs for `a` and `c`. -/
def fsABC : FS :=
  [File.desc "a", File.desc "b", File.desc "c",
   File.guideline "save" "a" 0, File.guideline "save" "c" 0]

theorem parse_skip (net : Net) (fs : FS) (c url : String) (p : Option String)
    (hd : Headers) (pa : ℚ) (sw : Bool) (h : File.desc c ∈ fs) :
    parse net fs c url p hd pa sw =
      (Except.ok (some (File.desc c)), fs, ([] : List Event)) := by
  simp [parse, h]

theorem parse_fetch_err (net : Net) (fs : FS) (c url : String) (p : Option String)
    (hd : Headers) (pa : ℚ) (sw : Bool) (hmem : File.desc c ∉ fs)
    (hst : (net url).status ≠ 200) :
    parse net fs c url p hd pa sw =
      (Except.error (Err.fetchError (net url).url), fs,
       (if pa ≠ 0 then [Event.sleep pa] else []) ++ [Event.get url hd]) := by
  simp [parse, hmem, parseFresh, hst]

theorem parse_structure_err (net : Net) (fs : FS) (c url : String) (p : Option String)
    (hd : Headers) (pa : ℚ) (sw : Bool) (hmem : File.desc c ∉ fs)
    (hst : (net url).status = 200)
    (hext : extractLinks (net url).page = []) :
    parse net fs c url p hd pa sw =
      (Except.error Err.structureError,
       fs ++ [File.desc c] ++ (if sw then [File.cacheUrl c] else []),
       (if pa ≠ 0 then [Event.sleep pa] else []) ++ [Event.get url hd]) := by
  cases sw <;> simp [parse, hmem, parseFresh, hst, hext]

theorem downloadLoop_mem_mono (net : Net) (c : String) (hd : Headers) (sw : Bool)
    (f : File) :
    ∀ (l : List Anchor) (n : Nat) (p : Option String) (fs : FS) (ev : List Event),
      f ∈ fs → f ∈ (downloadLoop net c hd sw l n p fs ev).2.1 := by
  intro l
  induction l with
  | nil => intro n p fs ev h; simpa [downloadLoop] using h
  | cons a rest ih =>
    intro n p fs ev h
    by_cases hst : (net a.href).status = 200
    · simp only [downloadLoop, hst, if_pos]
      apply ih
      cases sw <;> simp [h]
    · simpa [downloadLoop, hst] using h

theorem parse_ok_desc_mem (net : Net) (fs : FS) (c url : String) (p : Option String)
    (hd : Headers) (pa : ℚ) (sw : Bool) (r : Option File) (fs' : FS) (ev : List Event)
    (h : parse net fs c url p hd pa sw = (Except.ok r, fs', ev)) :
    File.desc c ∈ fs' := by
  by_cases hmem : File.desc c ∈ fs
  · rw [parse_skip net fs c url p hd pa sw hmem] at h
    injection h with h1 h2
    injection h2 with h2 h3
    rw [← h2]
    exact hmem
  · rw [parse, if_neg hmem] at h
    simp only [parseFresh] at h
    by_cases hst : (net url).status = 200
    · simp only [hst, if_true] at h
      by_cases hlen : (extractLinks (net url).page).length > 0
      · simp only [hlen, if_true, downloadRun] at h
        rcases hdl : downloadLoop net c hd sw (extractLinks (net url).page) 0 p
            ((if sw then (fs ++ [File.desc c] : FS) ++ [File.cacheUrl c]
              else fs ++ [File.desc c]))
            ((if pa ≠ 0 then [Event.sleep pa] else []) ++ [Event.get url hd])
          with ⟨res, fs2, ev2⟩
        rw [hdl] at h
        cases res with
        | ok u =>
          simp only at h
          injection h with h1 h2
          injection h2 with h2 h3
          rw [← h2]
          have hbase : File.desc c ∈
              (if sw then (fs ++ [File.desc c] : FS) ++ [File.cacheUrl c]
               else fs ++ [File.desc c]) := by
            cases sw <;> simp
          have := downloadLoop_mem_mono net c hd sw (File.desc c)
            (extractLinks (net url).page) 0 p
            ((if sw then (fs ++ [File.desc c] : FS) ++ [File.cacheUrl c]
              else fs ++ [File.desc c]))
            ((if pa ≠ 0 then [Event.sleep pa] else []) ++ [Event.get url hd]) hbase
          rw [hdl] at this
          exact this
        | error e =>
          simp only at h
          exact absurd h (by simp)
      · simp only [hlen, if_false] at h
        exact absurd h (by simp)
    · simp only [hst, if_false] at h
      exact absurd h (by simp)

theorem parse_ok_none (net : Net) (fs : FS) (c url : String) (p : Option String)
    (hd : Headers) (pa : ℚ) (sw : Bool) (r : Option File) (fs' : FS) (ev : List Event)
    (hmem : File.desc c ∉ fs)
    (h : parse net fs c url p hd pa sw = (Except.ok r, fs', ev)) :
    r = none := by
  rw [parse, if_neg hmem] at h
  simp only [parseFresh] at h
  by_cases hst : (net url).status = 200
  · simp only [hst, if_true] at h
    by_cases hlen : (extractLinks (net url).page).length > 0
    · simp only [hlen, if_true, downloadRun] at h
      rcases hdl : downloadLoop net c hd sw (extractLinks (net url).page) 0 p
          ((if sw then (fs ++ [File.desc c] : FS) ++ [File.cacheUrl c]
            else fs ++ [File.desc c]))
          ((if pa ≠ 0 then [Event.sleep pa] else []) ++ [Event.get url hd])
        with ⟨res, fs2, ev2⟩
      rw [hdl] at h
      cases res with
      | ok u =>
        simp only at h
        injection h with h1 h2
        injection h1 with h1
        exact h1.symm
      | error e =>
        simp only at h
        exact absurd h (by simp)
    · simp only [hlen, if_false] at h
      exact absurd h (by simp)
  · simp only [hst, if_false] at h
    exact absurd h (by simp)

theorem downloadLoop_fail (net : Net) (c : String) (hd : Headers) (sw : Bool)
    (bad : Anchor) (rest : List Anchor) (hbad : (net bad.href).status ≠ 200) :
    ∀ (good : List Anchor) (n : Nat) (p : Option String) (fs : FS) (ev : List Event),
      (∀ a, a ∈ good → (net a.href).status = 200) →
      downloadLoop net c hd sw (good ++ bad :: rest) n p fs ev =
        (Except.error (Err.pdfFetchError (net bad.href).url),
         fs ++ producedFiles sw (p.getD "save") c n good.length,
         ev ++ (good.map (fun a => Event.get a.href hd) ++ [Event.get bad.href hd])) := by
  intro good
  induction good with
  | nil =>
    intro n p fs ev _
    simp [downloadLoop, hbad, producedFiles]
  | cons a g ih =>
    intro n p fs ev hgood
    have ha : (net a.href).status = 200 := hgood a (by simp)
    have hg : ∀ x, x ∈ g → (net x.href).status = 200 := fun x hx => hgood x (by simp [hx])
    simp only [List.cons_append, downloadLoop, ha, if_pos, List.append_eq]
    rw [ih (n + 1) (some (p.getD "save"))
      ((if sw then fs ++ [File.cachePdf c n] else fs) ++ [File.guideline (p.getD "save") c n])
      (ev ++ [Event.get a.href hd]) hg]
    simp only [producedFiles, Option.getD_some, List.length_cons, List.map_cons]
    cases sw <;> simp [List.append_assoc]

theorem producedFiles_guideline_mem (sw : Bool) (dir c : String) :
    ∀ (k n : Nat) (d e : String) (j : Nat),
      File.guideline d e j ∈ producedFiles sw dir c n k →
      d = dir ∧ e = c ∧ n ≤ j ∧ j < n + k := by
  intro k
  induction k with
  | zero => intro n d e j h; simp [producedFiles] at h
  | succ k ih =>
    intro n d e j h
    rw [producedFiles] at h
    rcases List.mem_append.mp h with h | h
    · rcases List.mem_append.mp h with h | h
      · cases sw <;> simp at h
      · simp only [List.mem_singleton] at h
        injection h with h1 h2 h3
        exact ⟨h1, h2, by omega, by omega⟩
    · obtain ⟨h1, h2, h3, h4⟩ := ih (n + 1) d e j h
      exact ⟨h1, h2, by omega, by omega⟩

theorem producedFiles_mem_of_lt (sw : Bool) (dir c : String) :
    ∀ (k n j : Nat), n ≤ j → j < n + k →
      File.guideline dir c j ∈ producedFiles sw dir c n k := by
  intro k
  induction k with
  | zero => intro n j h1 h2; omega
  | succ k ih =>
    intro n j h1 h2
    by_cases hj : j = n
    · subst hj
      simp [producedFiles]
    · have := ih (n + 1) j (by omega) (by omega)
      simp [producedFiles]
      tauto

theorem startsWithPdf_iff (l : List Char) :
    startsWithPdf l = true ↔ ∃ t, l = 'p' :: 'd' :: 'f' :: t := by
  rcases l with _ | ⟨a, _ | ⟨b, _ | ⟨d, t⟩⟩⟩
  · simp [startsWithPdf]
  · simp [startsWithPdf]
  · simp [startsWithPdf]
  · simp only [startsWithPdf, Bool.and_eq_true, decide_eq_true_eq, List.cons.injEq]
    constructor
    · rintro ⟨⟨h1, h2⟩, h3⟩
      exact ⟨t, h1, h2, h3, rfl⟩
    · rintro ⟨t', h1, h2, h3, h4⟩
      exact ⟨⟨h1, h2⟩, h3⟩

theorem hasCharThenPdf_iff (l : List Char) :
    hasCharThenPdf l = true ↔
      ∃ pre c post, l = pre ++ c :: 'p' :: 'd' :: 'f' :: post ∧ c ≠ '\n' := by
  induction l with
  | nil =>
    simp only [hasCharThenPdf, Bool.false_eq_true, false_iff]
    rintro ⟨pre, c, post, h, -⟩
    cases pre <;> simp at h
  | cons a rest ih =>
    simp only [hasCharThenPdf, Bool.or_eq_true, Bool.and_eq_true, decide_eq_true_eq,
      startsWithPdf_iff, ih]
    constructor
    · rintro (⟨hne, t, ht⟩ | ⟨pre, c, post, hrest, hc⟩)
      · exact ⟨[], a, t, by simp [ht], hne⟩
      · exact ⟨a :: pre, c, post, by simp [hrest], hc⟩
    · rintro ⟨pre, c, post, heq, hc⟩
      cases pre with
      | nil =>
        left
        simp only [List.nil_append, List.cons.injEq] at heq
        exact ⟨heq.1 ▸ hc, post, heq.2⟩
      | cons x xs =>
        right
        simp only [List.cons_append, List.cons.injEq] at heq
        exact ⟨xs, c, post, heq.2, hc⟩

/-- The normal-form pause literal really is three halves. -/
theorem threeHalves_eq : threeHalves = 3 / 2 := by
  have h : (3 / 2 : ℚ).num = 3 ∧ (3 / 2 : ℚ).den = 2 := by norm_num
  rcases e : (3 / 2 : ℚ) with ⟨n, d, h1, h2⟩
  rw [e] at h
  simp at h
  simp [threeHalves, h]

/-- C1: when the description file for a country already exists, `parse`
performs no network request, does not sleep, creates or overwrites no
files, and returns the existing description file path; hence a second
invocation after any successful first run (under any network, URL, or
options) returns that same path with an empty event trace. -/
theorem parse_duplicate_skip_idempotent (net net2 : Net) (fs : FS) (c url url2 : String)
    (p p2 : Option String) (hd hd2 : Headers) (pa pa2 : ℚ) (sw sw2 : Bool) :
    (File.desc c ∈ fs →
      parse net fs c url p hd pa sw =
        (Except.ok (some (File.desc c)), fs, ([] : List Event))) ∧
    (∀ (r : Option File) (fs' : FS) (ev : List Event),
      parse net fs c url p hd pa sw = (Except.ok r, fs', ev) →
      parse net2 fs' c url2 p2 hd2 pa2 sw2 =
        (Except.ok (some (File.desc c)), fs', ([] : List Event))) := by
  constructor
  · intro h
    exact parse_skip net fs c url p hd pa sw h
  · intro r fs' ev h
    exact parse_skip net2 fs' c url2 p2 hd2 pa2 sw2
      (parse_ok_desc_mem net fs c url p hd pa sw r fs' ev h)

/-- Witness for C1: a skip on an existing description file, and a second
invocation after a successful fresh run. -/
theorem parse_duplicate_skip_idempotent_witness :
    parse net0 [File.desc "kenya"] "kenya" KENYA_URL none HEADERS 1 true =
      (Except.ok (some (File.desc "kenya")), [File.desc "kenya"], ([] : List Event)) ∧
    parse net0
      [File.desc "kenya", File.cacheUrl "kenya", File.cachePdf "kenya" 0,
       File.guideline "save" "kenya" 0] "kenya" KENYA_URL none HEADERS 1 true =
      (Except.ok (some (File.desc "kenya")),
       [File.desc "kenya", File.cacheUrl "kenya", File.cachePdf "kenya" 0,
        File.guideline "save" "kenya" 0], ([] : List Event)) :=
  ⟨(parse_duplicate_skip_idempotent net0 net0 [File.desc "kenya"] "kenya" KENYA_URL
      KENYA_URL none none HEADERS HEADERS 1 1 true true).1 (by decide),
   (parse_duplicate_skip_idempotent net0 net0 [] "kenya" KENYA_URL KENYA_URL none none
      HEADERS HEADERS 1 1 true true).2 none
      [File.desc "kenya", File.cacheUrl "kenya", File.cachePdf "kenya" 0,
       File.guideline "save" "kenya" 0]
      [Event.sleep 1, Event.get KENYA_URL HEADERS, Event.get "a.pdf" HEADERS] (by decide)⟩

/-- C3: when the country page fetch answers a status other than 200,
`parse` fails with a fetch error carrying the resolved URL, and the
filesystem is returned unchanged: no description PDF, cache file, or
guideline PDF is created for that country. -/
theorem parse_fetch_error_no_files (net : Net) (fs : FS) (c url : String)
    (p : Option String) (hd : Headers) (pa : ℚ) (sw : Bool)
    (hmem : File.desc c ∉ fs) (hst : (net url).status ≠ 200) :
    parse net fs c url p hd pa sw =
      (Except.error (Err.fetchError (net url).url), fs,
       (if pa ≠ 0 then [Event.sleep pa] else []) ++ [Event.get url hd]) :=
  parse_fetch_err net fs c url p hd pa sw hmem hst

/-- Witness for C3: a 404 country page leaves the filesystem empty and
reports the resolved URL. -/
theorem parse_fetch_error_no_files_witness :
    parse netR404 [] "x" "u" none [] 1 true =
      (Except.error (Err.fetchError "u"), ([] : FS),
       [Event.sleep 1, Event.get "u" []]) :=
  parse_fetch_error_no_files netR404 [] "x" "u" none [] 1 true (by decide) (by decide)

/-- C5: when no element of the fetched page matches the PDF-link pattern,
`parse` fails with the structure error (the `invalid search condition`
assertion), only the description PDF and the optional page cache are
created and no guideline PDF is, and the driver loop continues with the
remaining countries, so the failure is scoped to that country. -/
theorem parse_no_links_structure_error (net : Net) (fs : FS) (c url : String)
    (p : Option String) (hd : Headers) (pa : ℚ) (sw : Bool)
    (hmem : File.desc c ∉ fs) (hst : (net url).status = 200)
    (hext : extractLinks (net url).page = []) :
    parse net fs c url p hd pa sw =
      (Except.error Err.structureError,
       fs ++ [File.desc c] ++ (if sw then [File.cacheUrl c] else []),
       (if pa ≠ 0 then [Event.sleep pa] else []) ++ [Event.get url hd]) ∧
    (∀ (d e : String) (j : Nat),
      File.guideline d e j ∈ (parse net fs c url p hd pa sw).2.1 →
      File.guideline d e j ∈ fs) ∧
    (∀ (rest : List String) (ev0 : List Event),
      countryLoop net (c :: rest) fs ev0 =
        countryLoop net rest (parse net fs c (countryUrlOf c) none [] threeHalves true).2.1
          (ev0 ++ (parse net fs c (countryUrlOf c) none [] threeHalves true).2.2)) := by
  have heq := parse_structure_err net fs c url p hd pa sw hmem hst hext
  refine ⟨heq, ?_, fun rest ev0 => rfl⟩
  intro d e j hm
  rw [heq] at hm
  cases sw <;> simp at hm <;> exact hm

/-- Witness for C5: a 200 page with no links produces the structure error
and only the description and cache files. -/
theorem parse_no_links_structure_error_witness :
    parse netNoLinks [] "x" "u" none [] 0 true =
      (Except.error Err.structureError,
       [File.desc "x", File.cacheUrl "x"], [Event.get "u" []]) :=
  (parse_no_links_structure_error netNoLinks [] "x" "u" none [] 0 true
    (by decide) (by decide) (by decide)).1

/-- C6: the download loop processes links in index order, persists each
successful download as the guideline file of its index, and a non-200
download aborts the loop at once: the resulting files are exactly those of
the preceding indices, each such index has its guideline file, and no
guideline file with an index at or past the failed one is created. -/
theorem download_loop_index_order_abort (net : Net) (c : String) (hd : Headers)
    (sw : Bool) (good : List Anchor) (bad : Anchor) (rest : List Anchor)
    (p : Option String) (fs : FS) (ev : List Event)
    (hgood : ∀ a, a ∈ good → (net a.href).status = 200)
    (hbad : (net bad.href).status ≠ 200) :
    downloadLoop net c hd sw (good ++ bad :: rest) 0 p fs ev =
      (Except.error (Err.pdfFetchError (net bad.href).url),
       fs ++ producedFiles sw (p.getD "save") c 0 good.length,
       ev ++ (good.map (fun a => Event.get a.href hd) ++ [Event.get bad.href hd])) ∧
    (∀ j, j < good.length →
      File.guideline (p.getD "save") c j ∈
        (downloadLoop net c hd sw (good ++ bad :: rest) 0 p fs ev).2.1) ∧
    (∀ (d e : String) (j : Nat),
      File.guideline d e j ∈ (downloadLoop net c hd sw (good ++ bad :: rest) 0 p fs ev).2.1 →
      File.guideline d e j ∈ fs ∨ j < good.length) := by
  have heq := downloadLoop_fail net c hd sw bad rest hbad good 0 p fs ev hgood
  refine ⟨heq, ?_, ?_⟩
  · intro j hj
    rw [heq]
    simp only [List.mem_append]
    exact Or.inr (producedFiles_mem_of_lt sw (p.getD "save") c good.length 0 j
      (by omega) (by omega))
  · intro d e j hm
    rw [heq] at hm
    rcases List.mem_append.mp hm with hm | hm
    · exact Or.inl hm
    · obtain ⟨-, -, -, h4⟩ :=
        producedFiles_guideline_mem sw (p.getD "save") c good.length 0 d e j hm
      exact Or.inr (by omega)

/-- Witness for C6: one good link, then a failing link, then a further
link; only index 0 is persisted and the loop stops. -/
theorem download_loop_index_order_abort_witness :
    downloadLoop netC6 "kenya" [] true [⟨"g.pdf"⟩, ⟨"bad.pdf"⟩, ⟨"r.pdf"⟩] 0 none [] [] =
      (Except.error (Err.pdfFetchError "bad.pdf"),
       [File.cachePdf "kenya" 0, File.guideline "save" "kenya" 0],
       [Event.get "g.pdf" [], Event.get "bad.pdf" []]) :=
  (download_loop_index_order_abort netC6 "kenya" [] true [⟨"g.pdf"⟩] ⟨"bad.pdf"⟩
    [⟨"r.pdf"⟩] none [] [] (by decide) (by decide)).1

/-- C10: on the fresh-fetch path (description PDF not yet present) a
successful invocation of `parse` returns `none` rather than a file path;
only the duplicate-skip branch returns a value. -/
theorem parse_fresh_returns_none (net : Net) (fs : FS) (c url : String)
    (p : Option String) (hd : Headers) (pa : ℚ) (sw : Bool)
    (hmem : File.desc c ∉ fs) :
    ∀ (r : Option File) (fs' : FS) (ev : List Event),
      parse net fs c url p hd pa sw = (Except.ok r, fs', ev) → r = none :=
  fun r fs' ev h => parse_ok_none net fs c url p hd pa sw r fs' ev hmem h

/-- Witness for C10: a fully successful fresh run whose returned value is
`none`. -/
theorem parse_fresh_returns_none_witness :
    File.desc "kenya" ∉ ([] : FS) ∧ (none : Option File) = none :=
  ⟨by decide,
   parse_fresh_returns_none net0 [] "kenya" KENYA_URL none HEADERS 1 true (by decide)
     none
     [File.desc "kenya", File.cacheUrl "kenya", File.cachePdf "kenya" 0,
      File.guideline "save" "kenya" 0]
     [Event.sleep 1, Event.get KENYA_URL HEADERS, Event.get "a.pdf" HEADERS] (by decide)⟩

/-- C2 counterexample: the extractor is not the substring test for `.pdf`.
The dot in `re.compile(r'.*.pdf')` is unescaped, so the href `xpdf` — which
does not contain the substring `.pdf` — is matched and returned. -/
theorem extract_links_dotpdf_counterexample :
    extractLinks { anchors := [⟨"xpdf"⟩], tds := [] } = [⟨"xpdf"⟩] ∧
    containsDotPdf "xpdf" = false := by
  decide

/-- C2 (amended): the Link Extractor returns exactly the href-bearing
elements whose href contains `pdf` immediately preceded by one arbitrary
non-newline character (the unescaped dot of `r'.*.pdf'`), matched
case-sensitively and unanchored — a superset of the hrefs containing the
substring `.pdf`.  On the scenario page with anchors `a.pdf` and
`report.PDF?x=1`, processing country `kenya` yields exactly the single
guideline file `save/food-guideline-kenya0.pdf`. -/
theorem extract_links_pattern :
    (∀ (pg : Page) (a : Anchor),
      a ∈ extractLinks pg ↔ a ∈ pg.anchors ∧ matchesCharThenPdf a.href) ∧
    ((parse netC2 [] "kenya" KENYA_URL none HEADERS 1 true).2.1.filter isGuidelineFile =
      [File.guideline "save" "kenya" 0]) ∧
    fileName (File.guideline "save" "kenya" 0) = "save/food-guideline-kenya0.pdf" := by
  refine ⟨?_, by decide, by decide⟩
  intro pg a
  simp only [extractLinks, List.mem_filter, hrefMatches, hasCharThenPdf_iff,
    matchesCharThenPdf]

/-- Witness for C2: the scenario anchor `a.pdf` is extracted, via the
pattern characterization. -/
theorem extract_links_pattern_witness :
    (⟨"a.pdf"⟩ : Anchor) ∈
      extractLinks { anchors := [⟨"a.pdf"⟩, ⟨"report.PDF?x=1"⟩], tds := [] } :=
  (extract_links_pattern.1 { anchors := [⟨"a.pdf"⟩, ⟨"report.PDF?x=1"⟩], tds := [] }
      ⟨"a.pdf"⟩).mpr
    ⟨by decide, ⟨['a'], '.', [], rfl, by decide⟩⟩

/-- C4 counterexample: the region listing fetch performs no status check.
On a 404 response `get_countries` proceeds with the response body and
returns the country names parsed from it instead of failing. -/
theorem region_fetch_ignores_status :
    (netR404 (regionUrl "africa")).status ≠ 200 ∧
    get_countries netR404 "africa" (regionUrl "africa") [] =
      (("africa", ["Kenya"]), [Event.get (regionUrl "africa") []]) := by
  decide

/-- C4 (amended): the country page fetch and the linked-PDF fetch fail on
a non-200 status, but the region listing fetch (`get_countries`) performs
no status check: its result depends only on the response body, never on
the status. -/
theorem status_check_coverage (net net2 : Net) (fs : FS) (c url : String)
    (p : Option String) (hd : Headers) (pa : ℚ) (sw : Bool)
    (a : Anchor) (rest : List Anchor) (n : Nat) (ev : List Event)
    (region rurl : String) :
    (File.desc c ∉ fs → (net url).status ≠ 200 →
      (parse net fs c url p hd pa sw).1 = Except.error (Err.fetchError (net url).url)) ∧
    ((net a.href).status ≠ 200 →
      (downloadLoop net c hd sw (a :: rest) n p fs ev).1 =
        Except.error (Err.pdfFetchError (net a.href).url)) ∧
    ((net rurl).page = (net2 rurl).page →
      get_countries net region rurl hd = get_countries net2 region rurl hd) := by
  refine ⟨?_, ?_, ?_⟩
  · intro hmem hst
    rw [parse_fetch_err net fs c url p hd pa sw hmem hst]
  · intro hst
    simp [downloadLoop, hst]
  · intro hpage
    simp [get_countries, hpage]

/-- Witness for C4 (amended): a 404 country page and a 404 PDF link both
fail, and two networks differing only in status give `get_countries` the
same result. -/
theorem status_check_coverage_witness :
    (parse netR404 [] "x" "u" none [] 1 true).1 = Except.error (Err.fetchError "u") ∧
    (downloadLoop netR404 "x" [] true [⟨"b"⟩] 0 none [] []).1 =
      Except.error (Err.pdfFetchError "b") ∧
    get_countries netR404 "africa" "r" [] = get_countries netR200 "africa" "r" [] :=
  ⟨(status_check_coverage netR404 netR200 [] "x" "u" none [] 1 true ⟨"b"⟩ [] 0 []
      "africa" "r").1 (by decide) (by decide),
   (status_check_coverage netR404 netR200 [] "x" "u" none [] 1 true ⟨"b"⟩ [] 0 []
      "africa" "r").2.1 (by decide),
   (status_check_coverage netR404 netR200 [] "x" "u" none [] 1 true ⟨"b"⟩ [] 0 []
      "africa" "r").2.2 (by decide)⟩

/-- C7: in a full run only the initial Kenya request carries the fixed
browser header set; the region listing requests (and likewise the
per-country loop requests, exercised here through a snapshot) are sent
with the default empty header set, contradicting the fixed-header claim. -/
theorem driver_header_usage :
    Event.get KENYA_URL HEADERS ∈ mainEvents (mainRun net0 none []) ∧
    Event.get (regionUrl "africa") [] ∈ mainEvents (mainRun net0 none []) ∧
    Event.get (countryUrlOf "mali") [] ∈
      mainEvents (mainRun net0 (some [("africa", ["mali"])]) []) ∧
    ([] : Headers) ≠ HEADERS := by
  decide

/-- C8: `get_countries` maps the region name to the texts of exactly the
table cells containing no nested link, in document order; on the scenario
table with a plain `Kenya` cell and a linked `Sub` cell the result is
exactly `["Kenya"]`. -/
theorem get_countries_plain_cells (net : Net) (region url : String) (hd : Headers) :
    (get_countries net region url hd).1 =
      (region, ((net url).page.tds.filter (fun td => td.links.isEmpty)).map Cell.text) ∧
    (∀ s, s ∈ (get_countries net region url hd).1.2 ↔
      ∃ td, td ∈ (net url).page.tds ∧ td.links = [] ∧ td.text = s) ∧
    (get_countries netC8 "africa" "r8" []).1.2 = ["Kenya"] := by
  refine ⟨rfl, ?_, by decide⟩
  intro s
  simp only [get_countries, List.mem_map, List.mem_filter, List.isEmpty_iff]
  constructor
  · rintro ⟨td, ⟨h1, h2⟩, h3⟩
    exact ⟨td, h1, h2, h3⟩
  · rintro ⟨td, h1, h2, h3⟩
    exact ⟨td, ⟨h1, h2⟩, h3⟩

/-- Witness for C8: on the scenario table, `Kenya` is kept and the linked
cell's text `Sub` is excluded. -/
theorem get_countries_plain_cells_witness :
    "Kenya" ∈ (get_countries netC8 "africa" "r8" []).1.2 ∧
    "Sub" ∉ (get_countries netC8 "africa" "r8" []).1.2 :=
  ⟨((get_countries_plain_cells netC8 "africa" "r8" []).2.1 "Kenya").mpr
      ⟨⟨"Kenya", []⟩, by decide, rfl, rfl⟩,
   by decide⟩

/-- C9: evaluating the reconciliation at a run over the countries
`guinea-bissau` (description only) and `bissau` (description and one
guideline) shows the code reporting the empty set where the claimed set
difference is `{guinea-bissau}`: the code compares only the last
hyphen-separated name segments.  On hyphen-free names the claimed scenario
`{a, b, c}` minus `{a, c}` does give `{b}`. -/
theorem reconcile_last_segment_bug :
    reconcile fsEx = [] ∧
    specFailedCountries ["guinea-bissau", "bissau"] fsEx = ["guinea-bissau"] ∧
    reconcile fsABC = ["b"] ∧
    specFailedCountries ["a", "b", "c"] fsABC = ["b"] := by
  decide

end Fao
